import Mathlib

/-!
# Verification of the `biot_savart` field solver (`src/lib.rs`)

Shallow embedding of the Rust library: the grid converter `convert`
(lib.rs:25-29), the Biot-Savart solver `biot` (lib.rs:58-124) and the
Jmol visualization pass `export_jmol` (lib.rs:126-192).

Modelling conventions:
* `f64` values are modelled by exact real numbers `ℝ`.
* A Rust panic (index out of bounds, `unwrap` on `Err`, `expect` on an I/O
  failure) aborts the whole call and delivers no result to the caller, so a
  function that can panic is modelled with `Option`, `none` standing for a
  panicked call.  The model never uses `none` for a typed, recoverable error:
  the Rust source constructs no such error anywhere.
* `ndarray::Array3<f64>` is a shape triple plus row-major data.
-/

noncomputable section

/-- 3-vectors of reals, modelling the `array![x, y, z]` values in `biot`. -/
abbrev Vec3 : Type := ℝ × ℝ × ℝ

/-- The zero vector (the initial accumulator of every output cell,
`Array3::zeros`, lib.rs:70-72). -/
def vzero : Vec3 := ((0 : ℝ), (0 : ℝ), (0 : ℝ))

/-- A dense 3-D array in the standard (row-major) layout used by
`ndarray::Array3<f64>`: shape `(d0, d1, d2)` and flat data. -/
structure Array3 where
  d0 : ℕ
  d1 : ℕ
  d2 : ℕ
  data : List ℝ

/-- `a[[i, j, k]]` in row-major layout.  (All uses in the development are
in bounds; the default value is irrelevant there.) -/
def Array3.get (a : Array3) (i j k : ℕ) : ℝ :=
  a.data.getD (i * (a.d1 * a.d2) + j * a.d2 + k) 0

/-- Embedding of `convert` (lib.rs:25-29).  The Rust code flattens the nested
vector, then builds an `Array3` of shape
`(phi.len(), phi[0].len(), phi[0][0].len())` with `from_shape_vec(..).unwrap()`.
`phi[0]` / `phi[0][0]` panic when `phi` / `phi[0]` is empty, and `unwrap`
panics when the flattened length differs from the product of the three
computed extents; `none` models those panics.  No other validation exists. -/
def convert (phi : List (List (List ℝ))) : Option Array3 :=
  match phi with
  | [] => none
  | r0 :: _ =>
    match r0 with
    | [] => none
    | r00 :: _ =>
      if phi.flatten.flatten.length = phi.length * (r0.length * r00.length) then
        some ⟨phi.length, r0.length, r00.length, phi.flatten.flatten⟩
      else none

/-- x-component of the cross product `j × r` as written on lib.rs:97:
`-r[1] * jz_val + jy_val * r[2]`. -/
def crossX (j r : Vec3) : ℝ := -r.2.1 * j.2.2 + j.2.1 * r.2.2

/-- y-component of the cross product `j × r` as written on lib.rs:98:
`r[0] * jz_val - jx_val * r[2]`. -/
def crossY (j r : Vec3) : ℝ := r.1 * j.2.2 - j.1 * r.2.2

/-- z-component of the cross product `j × r` as written on lib.rs:99:
`-r[0] * jy_val + jx_val * r[1]`. -/
def crossZ (j r : Vec3) : ℝ := -r.1 * j.2.1 + j.1 * r.2.1

/-- `r.norm_l2().powf(3.0)` (lib.rs:94): the Euclidean norm of `r`, cubed. -/
def norm3 (r : Vec3) : ℝ := (Real.sqrt (r.1 ^ 2 + r.2.1 ^ 2 + r.2.2 ^ 2)) ^ 3

/-- Spatial position attached to grid index `p` by the coordinate axes
(`b_r` on lib.rs:79-83 and `r_mark` on lib.rs:92). -/
def posOf (xc yc zc : List ℝ) (p : ℕ × ℕ × ℕ) : Vec3 :=
  (xc.getD p.1 0, yc.getD p.2.1 0, zc.getD p.2.2 0)

/-- One iteration of the innermost summation body (lib.rs:88-100) for the
evaluation point at position `bp`: read `J` at the source index `q`, form
`r = bp - r_mark`, and add the cross-product term divided by `|r|³` to the
accumulator unless `|r|³ = 0`, which is skipped. -/
def biotStep (jxA jyA jzA : Array3) (xc yc zc : List ℝ) (bp : Vec3)
    (acc : Vec3) (q : ℕ × ℕ × ℕ) : Vec3 :=
  let jv : Vec3 := (jxA.get q.1 q.2.1 q.2.2, jyA.get q.1 q.2.1 q.2.2,
    jzA.get q.1 q.2.1 q.2.2)
  let r : Vec3 := bp - posOf xc yc zc q
  let r3 : ℝ := norm3 r
  if r3 ≠ 0 then
    (acc.1 + crossX jv r / r3, acc.2.1 + crossY jv r / r3,
      acc.2.2 + crossZ jv r / r3)
  else acc

/-- The triple-nested index enumeration used by the source loops: first axis
outermost, second axis middle, third axis innermost (lib.rs:85-87, and the
same row-major order in which `Zip::indexed` visits the output cells). -/
def sourceIndices (a b c : ℕ) : List (ℕ × ℕ × ℕ) :=
  (List.range a).flatMap fun i =>
    (List.range b).flatMap fun j =>
      (List.range c).map fun k => (i, j, k)

/-- The value the solver stores in output cell `p`: the strictly ordered left
fold of `biotStep` over all source indices, starting from zero
(lib.rs:78-104).  The source loops range over the coordinate-axis lengths. -/
def cellB (jxA jyA jzA : Array3) (xc yc zc : List ℝ) (p : ℕ × ℕ × ℕ) : Vec3 :=
  (sourceIndices xc.length yc.length zc.length).foldl
    (biotStep jxA jyA jzA xc yc zc (posOf xc yc zc p)) vzero

/-- Grid indices sampled by `export_jmol`:
`iter().enumerate().step_by(3)` (lib.rs:144-146, 168-170) yields exactly the
indices divisible by 3. -/
def strideIdx (n : ℕ) : List ℕ := (List.range n).filter fun i => i % 3 = 0

/-- The visualization pass of `export_jmol` indexes the three field arrays at
every sampled triple; when such an access is out of bounds the Rust code
panics.  This proposition says no access panics: either one sampled axis is
empty (so the loop body never runs), or every sampled index is in bounds. -/
abbrev exportSafe (d0 d1 d2 : ℕ) (xc yc zc : List ℝ) : Prop :=
  xc.length = 0 ∨ yc.length = 0 ∨ zc.length = 0 ∨
    ((∀ i ∈ strideIdx xc.length, i < d0) ∧ (∀ j ∈ strideIdx yc.length, j < d1) ∧
      (∀ k ∈ strideIdx zc.length, k < d2))

/-- Embedding of `biot` (lib.rs:58-124), the public entry point, under the
assumption that the visualization file is writable (see `biotWithFile`).
`none` models a panicked call:
* a panic inside `convert` (lib.rs:66-68);
* the shape assertion of `Zip::indexed(..).and(..)` (lib.rs:75-77), which
  panics when the three converted arrays disagree in shape;
* an out-of-bounds axis or grid access inside the parallel loop
  (lib.rs:80-90): with a nonempty output grid these accesses cover exactly
  the indices below the grid extents and the axis lengths, so they are all
  in bounds precisely when each axis length equals the corresponding grid
  extent; with an empty output grid the loop body never runs;
* an out-of-bounds access inside `export_jmol` (lib.rs:147-149, 176-181).
On a non-panicking run the returned triple is `into_raw_vec` of the three
output arrays: the row-major list of per-cell values. -/
def biot (jx jy jz : List (List (List ℝ))) (xc yc zc : List ℝ) :
    Option (List ℝ × List ℝ × List ℝ) :=
  (convert jx).bind fun ax =>
    (convert jy).bind fun ay =>
      (convert jz).bind fun az =>
        if (ay.d0 = ax.d0 ∧ ay.d1 = ax.d1 ∧ ay.d2 = ax.d2) ∧
            (az.d0 = ax.d0 ∧ az.d1 = ax.d1 ∧ az.d2 = ax.d2) then
          if (ax.d0 = 0 ∨ ax.d1 = 0 ∨ ax.d2 = 0) ∨
              (xc.length = ax.d0 ∧ yc.length = ax.d1 ∧ zc.length = ax.d2) then
            if exportSafe ax.d0 ax.d1 ax.d2 xc yc zc then
              some
                ((sourceIndices ax.d0 ax.d1 ax.d2).map fun p =>
                    (cellB ax ay az xc yc zc p).1,
                  (sourceIndices ax.d0 ax.d1 ax.d2).map fun p =>
                    (cellB ax ay az xc yc zc p).2.1,
                  (sourceIndices ax.d0 ax.d1 ax.d2).map fun p =>
                    (cellB ax ay az xc yc zc p).2.2)
            else none
          else none
        else none

/-- `biot` including the file side effect: `export_jmol` runs after the field
computation and its `File::create(..).expect(..)` (lib.rs:135) panics when the
output file cannot be created, aborting the whole call after the numeric
result was computed but before it is returned (lib.rs:119-123). `canWrite`
is the ambient file-system state. -/
def biotWithFile (canWrite : Bool) (jx jy jz : List (List (List ℝ)))
    (xc yc zc : List ℝ) : Option (List ℝ × List ℝ × List ℝ) :=
  (biot jx jy jz xc yc zc).bind fun r => if canWrite then some r else none

/-- A nested 3-level list is rectangular with extents `(M, N, K)`. -/
abbrev rect (phi : List (List (List ℝ))) (M N K : ℕ) : Prop :=
  phi.length = M ∧ (∀ r ∈ phi, r.length = N) ∧
    ∀ r ∈ phi, ∀ row ∈ r, row.length = K

/-- The contribution `[J(q) × r] / |r|³` of source index `q` to an
evaluation point at position `bp`, where `r = bp − r_q`; this is the vector
added by the source's three `+=` statements (lib.rs:97-99). -/
def termAt (jxA jyA jzA : Array3) (xc yc zc : List ℝ) (bp : Vec3)
    (q : ℕ × ℕ × ℕ) : Vec3 :=
  let jv : Vec3 := (jxA.get q.1 q.2.1 q.2.2, jyA.get q.1 q.2.1 q.2.2,
    jzA.get q.1 q.2.1 q.2.2)
  let r : Vec3 := bp - posOf xc yc zc q
  (crossX jv r / norm3 r, crossY jv r / norm3 r, crossZ jv r / norm3 r)

/-- The guarded contribution of source `q`: zero when the `r3 != 0.0` guard
(lib.rs:96) skips the source, `termAt` otherwise. -/
def stepTerm (jxA jyA jzA : Array3) (xc yc zc : List ℝ) (bp : Vec3)
    (q : ℕ × ℕ × ℕ) : Vec3 :=
  if norm3 (bp - posOf xc yc zc q) ≠ 0 then termAt jxA jyA jzA xc yc zc bp q
  else 0

/-- Modelled from the spec (§4.2): the Biot-Savart superposition value
`B(p) = Σ_q [J(q) × (r_p − r_q)] / |r_p − r_q|³`, the sum ranging over all
source indices `q` of the grid whose position differs from that of `p`.
Stated independently of the solver's loop structure, for comparison with
`cellB`. -/
def superpositionSpec (jxA jyA jzA : Array3) (xc yc zc : List ℝ)
    (p : ℕ × ℕ × ℕ) : Vec3 :=
  ∑ q ∈ (Finset.range xc.length ×ˢ (Finset.range yc.length ×ˢ
      Finset.range zc.length)).filter
        (fun q => posOf xc yc zc p ≠ posOf xc yc zc q),
    termAt jxA jyA jzA xc yc zc (posOf xc yc zc p) q

/-- Sample points visited by `export_jmol` (lib.rs:144-146 and 168-170):
stride-3 indices on each axis, in the solver's triple-nested order. -/
def samplePts (xc yc zc : List ℝ) : List (ℕ × ℕ × ℕ) :=
  (strideIdx xc.length).flatMap fun i =>
    (strideIdx yc.length).flatMap fun j =>
      (strideIdx zc.length).map fun k => (i, j, k)

/-- Field magnitude at a sample point (lib.rs:147-150):
`sqrt(bx² + by² + bz²)`. -/
def magnitude (bxA byA bzA : Array3) (p : ℕ × ℕ × ℕ) : ℝ :=
  Real.sqrt (bxA.get p.1 p.2.1 p.2.2 ^ 2 + byA.get p.1 p.2.1 p.2.2 ^ 2 +
    bzA.get p.1 p.2.1 p.2.2 ^ 2)

/-- The maximum of the sampled magnitudes (lib.rs:156): the source folds
`f64::max` from a NaN seed, which is absorbed by the first element, so for a
nonempty list this is a fold of `max` from the head. `none` for the empty
list (where the Rust fold yields NaN). -/
def listMax : List ℝ → Option ℝ
  | [] => none
  | x :: xs => some (xs.foldl max x)

/-- The minimum of the sampled magnitudes (lib.rs:157), analogously. -/
def listMin : List ℝ → Option ℝ
  | [] => none
  | x :: xs => some (xs.foldl min x)

/-- The normalization step (lib.rs:159-166): when the maximum equals the
minimum the list is left as is (the source only logs); otherwise every entry
`m` is replaced by `(m - min) / (max - min)`.  For the empty list both folds
are NaN and `NaN == NaN` is false in `f64`, so the source maps over the empty
list; the result is the empty list either way. -/
def normalizeLengths (ls : List ℝ) : List ℝ :=
  match listMax ls, listMin ls with
  | some mx, some mn =>
    if mx = mn then ls else ls.map fun m => (m - mn) / (mx - mn)
  | _, _ => ls

/-- The normalized value attached to one entry `m` of the magnitude list
`ls`, as a pointwise function: identity when the pass is skipped, the affine
rescaling otherwise. -/
def normalizeOne (ls : List ℝ) (m : ℝ) : ℝ :=
  match listMax ls, listMin ls with
  | some mx, some mn => if mx = mn then m else (m - mn) / (mx - mn)
  | _, _ => m

/-- One `draw arrow` directive of the visualization script (lib.rs:171-183). -/
structure JmolArrow where
  idx : ℕ
  color : ℕ × ℕ × ℕ
  diam : ℝ
  tailPt : Vec3
  headPt : Vec3

/-- The list of arrow directives emitted by `export_jmol` (lib.rs:168-187):
one per sample point in sampling order, numbered by `arrow_idx`, with the
fixed color `[1,0,0]`, the diameter read from the normalized magnitude list
at `arrow_idx`, and endpoints `sample coordinate ∓ raw field vector`. -/
def jmolArrows (bxA byA bzA : Array3) (xc yc zc : List ℝ) : List JmolArrow :=
  let samples := samplePts xc yc zc
  let ls := normalizeLengths (samples.map (magnitude bxA byA bzA))
  samples.enum.map fun kp =>
    { idx := kp.1
      color := (1, 0, 0)
      diam := ls.getD kp.1 0
      tailPt := (xc.getD kp.2.1 0 - bxA.get kp.2.1 kp.2.2.1 kp.2.2.2,
        yc.getD kp.2.2.1 0 - byA.get kp.2.1 kp.2.2.1 kp.2.2.2,
        zc.getD kp.2.2.2 0 - bzA.get kp.2.1 kp.2.2.1 kp.2.2.2)
      headPt := (xc.getD kp.2.1 0 + bxA.get kp.2.1 kp.2.2.1 kp.2.2.2,
        yc.getD kp.2.2.1 0 + byA.get kp.2.1 kp.2.2.1 kp.2.2.2,
        zc.getD kp.2.2.2 0 + bzA.get kp.2.1 kp.2.2.1 kp.2.2.2) }

/-- The parallel region of `biot` (lib.rs:75-104) as an explicit schedule:
the tasks, one per evaluation index, may execute in any order `sched`; each
task writes only its own cell, with the value `cellB` computed there.  The
initial state is the all-zero array (`Array3::zeros`). -/
def runSchedule (jxA jyA jzA : Array3) (xc yc zc : List ℝ)
    (sched : List (ℕ × ℕ × ℕ)) : (ℕ × ℕ × ℕ) → Vec3 :=
  sched.foldl
    (fun st p => Function.update st p (cellB jxA jyA jzA xc yc zc p))
    fun _ => vzero

/-- The 2×2×2 test grid of spec §8 carrying a unit Jx current at cell
(0,0,0) and zero elsewhere. -/
def jxUnit : List (List (List ℝ)) := [[[1, 0], [0, 0]], [[0, 0], [0, 0]]]

/-- The all-zero 2×2×2 grid. -/
def jZero222 : List (List (List ℝ)) := [[[0, 0], [0, 0]], [[0, 0], [0, 0]]]

/-- The axes `{0, 1}` of the spec §8 scenario. -/
def axes01 : List ℝ := [0, 1]

/-- `convert jxUnit`: dense 2×2×2 array with 1 in cell (0,0,0). -/
def aUnit : Array3 := ⟨2, 2, 2, [1, 0, 0, 0, 0, 0, 0, 0]⟩

/-- `convert jZero222`: dense all-zero 2×2×2 array. -/
def aZero : Array3 := ⟨2, 2, 2, [0, 0, 0, 0, 0, 0, 0, 0]⟩

/-- A one-cell all-zero field array (degenerate normalization test). -/
def aZero1 : Array3 := ⟨1, 1, 1, [0]⟩

/-- A one-point axis `{0}`. -/
def axes1 : List ℝ := [0]

/-- A 4×1×1 x-component field array whose sampled values (indices 0 and 3)
are 0 and 3, giving distinct sampled magnitudes. -/
def bxStep4 : Array3 := ⟨4, 1, 1, [0, 0, 0, 3]⟩

/-- The matching all-zero 4×1×1 array. -/
def bZero4 : Array3 := ⟨4, 1, 1, [0, 0, 0, 0]⟩

/-- A length-4 axis (all zeros; only its length matters for sampling). -/
def axes4 : List ℝ := [0, 0, 0, 0]

/-! ## Basic lemmas -/

lemma vzero_eq_zero : vzero = (0 : Vec3) := rfl

lemma norm3_eq_zero (r : Vec3) : norm3 r = 0 ↔ r = vzero := by
  unfold norm3
  constructor
  · intro h
    have h3 : Real.sqrt (r.1 ^ 2 + r.2.1 ^ 2 + r.2.2 ^ 2) = 0 :=
      (pow_eq_zero_iff (three_ne_zero)).mp h
    have hs : r.1 ^ 2 + r.2.1 ^ 2 + r.2.2 ^ 2 ≤ 0 := Real.sqrt_eq_zero'.mp h3
    have h1 : r.1 ^ 2 = 0 := by nlinarith [sq_nonneg r.1, sq_nonneg r.2.1, sq_nonneg r.2.2]
    have h2 : r.2.1 ^ 2 = 0 := by nlinarith [sq_nonneg r.1, sq_nonneg r.2.1, sq_nonneg r.2.2]
    have h3' : r.2.2 ^ 2 = 0 := by nlinarith [sq_nonneg r.1, sq_nonneg r.2.1, sq_nonneg r.2.2]
    have e1 : r.1 = 0 := (pow_eq_zero_iff two_ne_zero).mp h1
    have e2 : r.2.1 = 0 := (pow_eq_zero_iff two_ne_zero).mp h2
    have e3 : r.2.2 = 0 := (pow_eq_zero_iff two_ne_zero).mp h3'
    exact Prod.ext e1 (Prod.ext e2 e3)
  · intro h
    subst h
    norm_num [vzero]

lemma biotStep_eq (jxA jyA jzA : Array3) (xc yc zc : List ℝ) (bp acc : Vec3)
    (q : ℕ × ℕ × ℕ) :
    biotStep jxA jyA jzA xc yc zc bp acc q =
      acc + stepTerm jxA jyA jzA xc yc zc bp q := by
  by_cases h : norm3 (bp - posOf xc yc zc q) ≠ 0 <;>
    simp [biotStep, stepTerm, termAt, h, Prod.ext_iff]

lemma foldl_biotStep (jxA jyA jzA : Array3) (xc yc zc : List ℝ) (bp : Vec3) :
    ∀ (l : List (ℕ × ℕ × ℕ)) (acc : Vec3),
      l.foldl (biotStep jxA jyA jzA xc yc zc bp) acc =
        acc + (l.map (stepTerm jxA jyA jzA xc yc zc bp)).sum := by
  intro l
  induction l with
  | nil => intro acc; simp
  | cons q t ih =>
    intro acc
    rw [List.foldl_cons, ih, biotStep_eq, List.map_cons, List.sum_cons,
      add_assoc]

lemma cellB_eq_sum (jxA jyA jzA : Array3) (xc yc zc : List ℝ) (p : ℕ × ℕ × ℕ) :
    cellB jxA jyA jzA xc yc zc p =
      ((sourceIndices xc.length yc.length zc.length).map
        (stepTerm jxA jyA jzA xc yc zc (posOf xc yc zc p))).sum := by
  unfold cellB
  rw [foldl_biotStep, vzero_eq_zero, zero_add]

lemma sum_map_range {M : Type} [AddCommMonoid M] (f : ℕ → M) :
    ∀ n : ℕ, ((List.range n).map f).sum = ∑ i ∈ Finset.range n, f i := by
  intro n
  induction n with
  | zero => simp
  | succ m ih =>
    rw [List.range_succ, List.map_append, List.sum_append, Finset.sum_range_succ,
      ih]
    simp

lemma sum_map_flatMap {α β M : Type} [AddCommMonoid M] (g : α → List β)
    (f : β → M) : ∀ l : List α,
      ((l.flatMap g).map f).sum = (l.map fun a => ((g a).map f).sum).sum := by
  intro l
  induction l with
  | nil => simp
  | cons a t ih => simp [List.flatMap_cons, ih]

lemma sum_sourceIndices {M : Type} [AddCommMonoid M] (f : ℕ × ℕ × ℕ → M)
    (a b c : ℕ) :
    ((sourceIndices a b c).map f).sum =
      ∑ i ∈ Finset.range a, ∑ j ∈ Finset.range b, ∑ k ∈ Finset.range c,
        f (i, j, k) := by
  unfold sourceIndices
  simp only [sum_map_flatMap, List.map_map, Function.comp, sum_map_range]

lemma stepTerm_eq_ite (jxA jyA jzA : Array3) (xc yc zc : List ℝ) (bp : Vec3)
    (q : ℕ × ℕ × ℕ) :
    stepTerm jxA jyA jzA xc yc zc bp q =
      if bp ≠ posOf xc yc zc q then termAt jxA jyA jzA xc yc zc bp q else 0 := by
  unfold stepTerm
  simp only [ne_eq, norm3_eq_zero, vzero_eq_zero, sub_eq_zero]

lemma superpositionSpec_eq (jxA jyA jzA : Array3) (xc yc zc : List ℝ)
    (p : ℕ × ℕ × ℕ) :
    superpositionSpec jxA jyA jzA xc yc zc p =
      ∑ i ∈ Finset.range xc.length, ∑ j ∈ Finset.range yc.length,
        ∑ k ∈ Finset.range zc.length,
          stepTerm jxA jyA jzA xc yc zc (posOf xc yc zc p) (i, j, k) := by
  unfold superpositionSpec
  rw [Finset.sum_filter]
  simp only [Finset.sum_product, stepTerm_eq_ite]

lemma cellB_eq_superposition (jxA jyA jzA : Array3) (xc yc zc : List ℝ)
    (p : ℕ × ℕ × ℕ) :
    cellB jxA jyA jzA xc yc zc p = superpositionSpec jxA jyA jzA xc yc zc p := by
  rw [cellB_eq_sum, sum_sourceIndices, superpositionSpec_eq]

/-! ## Indexing lemmas for `sourceIndices` and `convert` -/

lemma length_flatMap_const {α β : Type} (l : List α) (g : α → List β) (c : ℕ)
    (hc : ∀ a ∈ l, (g a).length = c) : (l.flatMap g).length = l.length * c := by
  induction l with
  | nil => simp
  | cons a t ih =>
    have ha : (g a).length = c := hc a (by simp)
    have ht : (t.flatMap g).length = t.length * c :=
      ih fun x hx => hc x (by simp [hx])
    simp only [List.flatMap_cons, List.length_append, ha, ht, List.length_cons]
    ring

lemma getElem?_range_flatMap {β : Type} (g : ℕ → List β) (c : ℕ)
    (hc : ∀ i, (g i).length = c) :
    ∀ m a b : ℕ, a < m → b < c →
      ((List.range m).flatMap g)[a * c + b]? = (g a)[b]? := by
  intro m
  induction m with
  | zero => intro a b ha _; exact absurd ha (Nat.not_lt_zero a)
  | succ n ih =>
    intro a b ha hb
    rw [List.range_succ, List.flatMap_append]
    have hlen : ((List.range n).flatMap g).length = n * c := by
      rw [length_flatMap_const _ _ c fun i _ => hc i, List.length_range]
    by_cases h : a < n
    · rw [List.getElem?_append_left]
      · exact ih a b h hb
      · rw [hlen]
        calc a * c + b < a * c + c := by omega
          _ = (a + 1) * c := by ring
          _ ≤ n * c := Nat.mul_le_mul_right c h
    · have ha' : a = n := by omega
      subst ha'
      rw [List.getElem?_append_right (by rw [hlen]; omega)]
      have hidx : a * c + b - ((List.range a).flatMap g).length = b := by
        rw [hlen]; omega
      rw [hidx]
      simp

lemma sourceIndices_length (a b c : ℕ) :
    (sourceIndices a b c).length = a * (b * c) := by
  unfold sourceIndices
  rw [length_flatMap_const _ _ (b * c), List.length_range]
  intro i _
  rw [length_flatMap_const _ _ c, List.length_range]
  intro j _
  simp

lemma sourceIndices_getElem (a b c i j k : ℕ) (hi : i < a) (hj : j < b)
    (hk : k < c) :
    (sourceIndices a b c)[i * (b * c) + (j * c + k)]? = some (i, j, k) := by
  unfold sourceIndices
  have hjk : j * c + k < b * c := by
    calc j * c + k < j * c + c := by omega
      _ = (j + 1) * c := by ring
      _ ≤ b * c := Nat.mul_le_mul_right c hj
  rw [getElem?_range_flatMap _ (b * c) ?hblock a i (j * c + k) hi hjk]
  case hblock =>
    intro n
    rw [length_flatMap_const _ _ c, List.length_range]
    intro m _
    simp
  rw [getElem?_range_flatMap _ c (fun n => by simp) b j k hj hk]
  rw [List.getElem?_map, List.getElem?_range hk]
  rfl

lemma rect_flatten_length (phi : List (List (List ℝ))) (M N K : ℕ)
    (h : rect phi M N K) : phi.flatten.flatten.length = M * (N * K) := by
  obtain ⟨hM, hN, hK⟩ := h
  have h2 : phi.flatten.length = M * N := by
    rw [List.length_flatten]
    have hrep : phi.map List.length = List.replicate M N := by
      have := List.eq_replicate_of_mem (l := phi.map List.length) (a := N)
        (by intro b hb; obtain ⟨r, hr, hrb⟩ := List.mem_map.mp hb;
            exact hrb ▸ hN r hr)
      rwa [List.length_map, hM] at this
    rw [hrep, List.sum_replicate, smul_eq_mul]
  rw [List.length_flatten]
  have hrep : phi.flatten.map List.length = List.replicate (M * N) K := by
    have := List.eq_replicate_of_mem (l := phi.flatten.map List.length) (a := K)
      (by intro b hb; obtain ⟨row, hrow, hrb⟩ := List.mem_map.mp hb;
          obtain ⟨r, hr, hrow'⟩ := List.mem_flatten.mp hrow;
          exact hrb ▸ hK r hr row hrow')
    rwa [List.length_map, h2] at this
  rw [hrep, List.sum_replicate, smul_eq_mul]
  ring

lemma convert_rect (phi : List (List (List ℝ))) (M N K : ℕ)
    (h : rect phi M N K) (hM : 0 < M) (hN : 0 < N) :
    convert phi = some ⟨M, N, K, phi.flatten.flatten⟩ := by
  obtain ⟨hMl, hNl, hKl⟩ := h
  cases phi with
  | nil => rw [List.length_nil] at hMl; omega
  | cons r0 t =>
    cases r0 with
    | nil =>
      have := hNl [] (by simp)
      rw [List.length_nil] at this
      omega
    | cons r00 t0 =>
      have e1 : (r00 :: t0).length = N := hNl (r00 :: t0) (by simp)
      have e2 : r00.length = K := hKl (r00 :: t0) (by simp) r00 (by simp)
      have e3 : ((r00 :: t0) :: t).flatten.flatten.length = M * (N * K) :=
        rect_flatten_length _ M N K ⟨hMl, hNl, hKl⟩
      simp only [convert]
      rw [if_pos (by rw [e3, hMl, e1, e2])]
      rw [hMl, e1, e2]

lemma mem_strideIdx_lt {n i : ℕ} (h : i ∈ strideIdx n) : i < n :=
  List.mem_range.mp (List.mem_filter.mp h).1

lemma biot_valid (jx jy jz : List (List (List ℝ))) (xc yc zc : List ℝ)
    (M N K : ℕ) (hx : rect jx M N K) (hy : rect jy M N K) (hz : rect jz M N K)
    (hM : 0 < M) (hN : 0 < N)
    (hxc : xc.length = M) (hyc : yc.length = N) (hzc : zc.length = K) :
    biot jx jy jz xc yc zc = some
      ((sourceIndices M N K).map fun p =>
          (cellB ⟨M, N, K, jx.flatten.flatten⟩ ⟨M, N, K, jy.flatten.flatten⟩
            ⟨M, N, K, jz.flatten.flatten⟩ xc yc zc p).1,
        (sourceIndices M N K).map fun p =>
          (cellB ⟨M, N, K, jx.flatten.flatten⟩ ⟨M, N, K, jy.flatten.flatten⟩
            ⟨M, N, K, jz.flatten.flatten⟩ xc yc zc p).2.1,
        (sourceIndices M N K).map fun p =>
          (cellB ⟨M, N, K, jx.flatten.flatten⟩ ⟨M, N, K, jy.flatten.flatten⟩
            ⟨M, N, K, jz.flatten.flatten⟩ xc yc zc p).2.2) := by
  unfold biot
  rw [convert_rect jx M N K hx hM hN, convert_rect jy M N K hy hM hN,
    convert_rect jz M N K hz hM hN]
  simp only [Option.some_bind]
  rw [if_pos (by simp),
    if_pos (Or.inr ⟨hxc, hyc, hzc⟩),
    if_pos (Or.inr (Or.inr (Or.inr
      ⟨fun i hi => hxc ▸ mem_strideIdx_lt hi,
       fun j hj => hyc ▸ mem_strideIdx_lt hj,
       fun k hk => hzc ▸ mem_strideIdx_lt hk⟩)))]

/-! ## Scheduling lemmas (parallel region) -/

lemma runSchedule_core_not_mem (jxA jyA jzA : Array3) (xc yc zc : List ℝ) :
    ∀ (sched : List (ℕ × ℕ × ℕ)) (st : (ℕ × ℕ × ℕ) → Vec3) (p : ℕ × ℕ × ℕ),
      p ∉ sched →
      sched.foldl
        (fun st q => Function.update st q (cellB jxA jyA jzA xc yc zc q)) st p
        = st p := by
  intro sched
  induction sched with
  | nil => intro st p _; rfl
  | cons q t ih =>
    intro st p hp
    rw [List.foldl_cons, ih _ p (fun h => hp (List.mem_cons_of_mem q h)),
      Function.update_noteq
        (fun h => hp (by rw [h]; exact List.mem_cons_self q t))]

lemma runSchedule_core_mem (jxA jyA jzA : Array3) (xc yc zc : List ℝ) :
    ∀ (sched : List (ℕ × ℕ × ℕ)) (st : (ℕ × ℕ × ℕ) → Vec3) (p : ℕ × ℕ × ℕ),
      p ∈ sched →
      sched.foldl
        (fun st q => Function.update st q (cellB jxA jyA jzA xc yc zc q)) st p
        = cellB jxA jyA jzA xc yc zc p := by
  intro sched
  induction sched with
  | nil => intro st p hp; exact absurd hp (List.not_mem_nil p)
  | cons q t ih =>
    intro st p hp
    rw [List.foldl_cons]
    by_cases hpt : p ∈ t
    · exact ih _ p hpt
    · have hpq : p = q := by
        rcases List.mem_cons.mp hp with h | h
        · exact h
        · exact absurd h hpt
      subst hpq
      rw [runSchedule_core_not_mem jxA jyA jzA xc yc zc t _ p hpt,
        Function.update_same]

lemma runSchedule_mem (jxA jyA jzA : Array3) (xc yc zc : List ℝ)
    (sched : List (ℕ × ℕ × ℕ)) (p : ℕ × ℕ × ℕ) (hp : p ∈ sched) :
    runSchedule jxA jyA jzA xc yc zc sched p = cellB jxA jyA jzA xc yc zc p :=
  runSchedule_core_mem jxA jyA jzA xc yc zc sched _ p hp

/-! ## Normalization lemmas (visualization pass) -/

lemma foldl_max_init (x : ℝ) : ∀ xs : List ℝ, x ≤ xs.foldl max x := by
  intro xs
  induction xs generalizing x with
  | nil => exact le_refl x
  | cons y ys ih => exact le_trans (le_max_left x y) (ih (max x y))

lemma foldl_max_mem (x a : ℝ) : ∀ xs : List ℝ, a ∈ xs → a ≤ xs.foldl max x := by
  intro xs
  induction xs generalizing x with
  | nil => intro h; exact absurd h (List.not_mem_nil a)
  | cons y ys ih =>
    intro h
    rcases List.mem_cons.mp h with h | h
    · subst h
      exact le_trans (le_max_right x a) (foldl_max_init (max x a) ys)
    · exact ih (max x y) h

lemma foldl_min_init (x : ℝ) : ∀ xs : List ℝ, xs.foldl min x ≤ x := by
  intro xs
  induction xs generalizing x with
  | nil => exact le_refl x
  | cons y ys ih => exact le_trans (ih (min x y)) (min_le_left x y)

lemma foldl_min_mem (x a : ℝ) : ∀ xs : List ℝ, a ∈ xs → xs.foldl min x ≤ a := by
  intro xs
  induction xs generalizing x with
  | nil => intro h; exact absurd h (List.not_mem_nil a)
  | cons y ys ih =>
    intro h
    rcases List.mem_cons.mp h with h | h
    · subst h
      exact le_trans (foldl_min_init (min x a) ys) (min_le_right x a)
    · exact ih (min x y) h

lemma listMax_mem_le {ls : List ℝ} {mx a : ℝ} (h : listMax ls = some mx)
    (ha : a ∈ ls) : a ≤ mx := by
  cases ls with
  | nil => exact absurd ha (List.not_mem_nil a)
  | cons x xs =>
    rw [listMax] at h
    obtain rfl : xs.foldl max x = mx := Option.some.inj h
    rcases List.mem_cons.mp ha with h' | h'
    · exact h' ▸ foldl_max_init x xs
    · exact foldl_max_mem x a xs h'

lemma listMin_le_mem {ls : List ℝ} {mn a : ℝ} (h : listMin ls = some mn)
    (ha : a ∈ ls) : mn ≤ a := by
  cases ls with
  | nil => exact absurd ha (List.not_mem_nil a)
  | cons x xs =>
    rw [listMin] at h
    obtain rfl : xs.foldl min x = mn := Option.some.inj h
    rcases List.mem_cons.mp ha with h' | h'
    · exact h' ▸ foldl_min_init x xs
    · exact foldl_min_mem x a xs h'

lemma listMax_cons (x : ℝ) (xs : List ℝ) :
    listMax (x :: xs) = some (xs.foldl max x) := rfl

lemma listMin_cons (x : ℝ) (xs : List ℝ) :
    listMin (x :: xs) = some (xs.foldl min x) := rfl

lemma normalizeLengths_skip {ls : List ℝ} {mx mn : ℝ}
    (hmx : listMax ls = some mx) (hmn : listMin ls = some mn) (h : mx = mn) :
    normalizeLengths ls = ls := by
  rw [normalizeLengths, hmx, hmn]
  show (if mx = mn then ls else ls.map fun m => (m - mn) / (mx - mn)) = ls
  rw [if_pos h]

lemma normalizeLengths_rescale {ls : List ℝ} {mx mn : ℝ}
    (hmx : listMax ls = some mx) (hmn : listMin ls = some mn) (h : mx ≠ mn) :
    normalizeLengths ls = ls.map fun m => (m - mn) / (mx - mn) := by
  rw [normalizeLengths, hmx, hmn]
  show (if mx = mn then ls else ls.map fun m => (m - mn) / (mx - mn)) =
    ls.map fun m => (m - mn) / (mx - mn)
  rw [if_neg h]

lemma normalizeLengths_mem_unit {ls : List ℝ} {mx mn : ℝ}
    (hmx : listMax ls = some mx) (hmn : listMin ls = some mn) (h : mx ≠ mn) :
    ∀ v ∈ normalizeLengths ls, 0 ≤ v ∧ v ≤ 1 := by
  intro v hv
  rw [normalizeLengths_rescale hmx hmn h] at hv
  obtain ⟨m, hm, rfl⟩ := List.mem_map.mp hv
  have h1 : mn ≤ m := listMin_le_mem hmn hm
  have h2 : m ≤ mx := listMax_mem_le hmx hm
  have h3 : mn < mx := lt_of_le_of_ne (le_trans h1 h2) (Ne.symm h)
  have h4 : 0 < mx - mn := by linarith
  constructor
  · exact div_nonneg (by linarith) (le_of_lt h4)
  · rw [div_le_one h4]
    linarith

lemma normalizeLengths_length (ls : List ℝ) :
    (normalizeLengths ls).length = ls.length := by
  cases ls with
  | nil => rfl
  | cons x xs =>
    by_cases h : xs.foldl max x = xs.foldl min x
    · rw [normalizeLengths_skip (listMax_cons x xs) (listMin_cons x xs) h]
    · rw [normalizeLengths_rescale (listMax_cons x xs) (listMin_cons x xs) h, List.length_map]

lemma getD_map_of_lt (f : ℝ → ℝ) {l : List ℝ} {k : ℕ} (hk : k < l.length) :
    (l.map f).getD k 0 = f (l.getD k 0) := by
  rw [List.getD_eq_getElem?_getD, List.getD_eq_getElem?_getD, List.getElem?_map,
    List.getElem?_eq_getElem hk]
  rfl

lemma normalizeLengths_getD {ls : List ℝ} {k : ℕ} (hk : k < ls.length) :
    (normalizeLengths ls).getD k 0 = normalizeOne ls (ls.getD k 0) := by
  cases ls with
  | nil => exact absurd hk (by simp)
  | cons x xs =>
    show _ = (if xs.foldl max x = xs.foldl min x then (x :: xs).getD k 0
      else ((x :: xs).getD k 0 - xs.foldl min x) /
        (xs.foldl max x - xs.foldl min x))
    by_cases h : xs.foldl max x = xs.foldl min x
    · rw [normalizeLengths_skip (listMax_cons x xs) (listMin_cons x xs) h, if_pos h]
    · rw [normalizeLengths_rescale (listMax_cons x xs) (listMin_cons x xs) h, if_neg h,
        getD_map_of_lt _ hk]

/-! ## Pointwise evaluation helpers -/

lemma termAt_zeroJ {jxA jyA jzA : Array3} {xc yc zc : List ℝ} {bp : Vec3}
    {q : ℕ × ℕ × ℕ} (h1 : jxA.get q.1 q.2.1 q.2.2 = 0)
    (h2 : jyA.get q.1 q.2.1 q.2.2 = 0) (h3 : jzA.get q.1 q.2.1 q.2.2 = 0) :
    termAt jxA jyA jzA xc yc zc bp q = 0 := by
  simp [termAt, crossX, crossY, crossZ, h1, h2, h3, Prod.ext_iff]

lemma stepTerm_zeroJ {jxA jyA jzA : Array3} {xc yc zc : List ℝ} {bp : Vec3}
    {q : ℕ × ℕ × ℕ} (h1 : jxA.get q.1 q.2.1 q.2.2 = 0)
    (h2 : jyA.get q.1 q.2.1 q.2.2 = 0) (h3 : jzA.get q.1 q.2.1 q.2.2 = 0) :
    stepTerm jxA jyA jzA xc yc zc bp q = 0 := by
  unfold stepTerm
  rw [termAt_zeroJ h1 h2 h3, ite_self]

lemma stepTerm_self {jxA jyA jzA : Array3} {xc yc zc : List ℝ} {bp : Vec3}
    {q : ℕ × ℕ × ℕ} (h : bp = posOf xc yc zc q) :
    stepTerm jxA jyA jzA xc yc zc bp q = 0 := by
  have hz : norm3 (bp - posOf xc yc zc q) = 0 :=
    (norm3_eq_zero _).mpr (by rw [h, sub_self, vzero_eq_zero])
  unfold stepTerm
  rw [if_neg (not_ne_iff.mpr hz)]

lemma mem_sourceIndices {a b c : ℕ} {q : ℕ × ℕ × ℕ}
    (h : q ∈ sourceIndices a b c) : q.1 < a ∧ q.2.1 < b ∧ q.2.2 < c := by
  unfold sourceIndices at h
  obtain ⟨i, hi, h⟩ := List.mem_flatMap.mp h
  obtain ⟨j, hj, h⟩ := List.mem_flatMap.mp h
  obtain ⟨k, hk, h⟩ := List.mem_map.mp h
  cases h
  exact ⟨List.mem_range.mp hi, List.mem_range.mp hj, List.mem_range.mp hk⟩

lemma map_getD_of_getElem? {α : Type} (f : α → ℝ) (l : List α) (n : ℕ) (p : α)
    (h : l[n]? = some p) : (l.map f).getD n 0 = f p := by
  rw [List.getD_eq_getElem?_getD, List.getElem?_map, h]
  rfl

lemma sqrt3_cube : Real.sqrt 3 ^ 3 = 3 * Real.sqrt 3 := by
  have h : Real.sqrt 3 ^ 3 = Real.sqrt 3 ^ 2 * Real.sqrt 3 := by ring
  rw [h, Real.sq_sqrt (by norm_num : (0:ℝ) ≤ 3)]

lemma sqrt3_cube_ne : Real.sqrt 3 ^ 3 ≠ 0 := by
  have h : 0 < Real.sqrt 3 := Real.sqrt_pos.mpr (by norm_num)
  positivity

/-! ## Concrete 2×2×2 scenario evaluations -/

lemma posOf_111 : posOf axes01 axes01 axes01 (1, 1, 1) = ((1 : ℝ), 1, 1) := rfl

lemma sub_pos_000 :
    posOf axes01 axes01 axes01 (1, 1, 1) - posOf axes01 axes01 axes01 (0, 0, 0)
      = ((1 : ℝ), 1, 1) := by
  show ((1 : ℝ), (1 : ℝ), (1 : ℝ)) - ((0 : ℝ), (0 : ℝ), (0 : ℝ)) = _
  simp [Prod.ext_iff]

lemma norm3_111 : norm3 ((1 : ℝ), 1, 1) = Real.sqrt 3 ^ 3 := by
  unfold norm3
  norm_num

lemma scenario_cell :
    cellB aUnit aZero aZero axes01 axes01 axes01 (1, 1, 1) =
      (0, -(1 / (3 * Real.sqrt 3)), 1 / (3 * Real.sqrt 3)) := by
  have h0 : stepTerm aUnit aZero aZero axes01 axes01 axes01
      (posOf axes01 axes01 axes01 (1, 1, 1)) (0, 0, 0)
      = (0, -(1 / (3 * Real.sqrt 3)), 1 / (3 * Real.sqrt 3)) := by
    simp only [stepTerm, termAt, sub_pos_000, norm3_111]
    rw [if_pos sqrt3_cube_ne]
    norm_num [Array3.get, aUnit, aZero, crossX, crossY, crossZ, Prod.ext_iff,
      sqrt3_cube]
    ring
  have h001 : stepTerm aUnit aZero aZero axes01 axes01 axes01
      (posOf axes01 axes01 axes01 (1, 1, 1)) (0, 0, 1) = 0 :=
    stepTerm_zeroJ rfl rfl rfl
  have h010 : stepTerm aUnit aZero aZero axes01 axes01 axes01
      (posOf axes01 axes01 axes01 (1, 1, 1)) (0, 1, 0) = 0 :=
    stepTerm_zeroJ rfl rfl rfl
  have h011 : stepTerm aUnit aZero aZero axes01 axes01 axes01
      (posOf axes01 axes01 axes01 (1, 1, 1)) (0, 1, 1) = 0 :=
    stepTerm_zeroJ rfl rfl rfl
  have h100 : stepTerm aUnit aZero aZero axes01 axes01 axes01
      (posOf axes01 axes01 axes01 (1, 1, 1)) (1, 0, 0) = 0 :=
    stepTerm_zeroJ rfl rfl rfl
  have h101 : stepTerm aUnit aZero aZero axes01 axes01 axes01
      (posOf axes01 axes01 axes01 (1, 1, 1)) (1, 0, 1) = 0 :=
    stepTerm_zeroJ rfl rfl rfl
  have h110 : stepTerm aUnit aZero aZero axes01 axes01 axes01
      (posOf axes01 axes01 axes01 (1, 1, 1)) (1, 1, 0) = 0 :=
    stepTerm_zeroJ rfl rfl rfl
  have h111 : stepTerm aUnit aZero aZero axes01 axes01 axes01
      (posOf axes01 axes01 axes01 (1, 1, 1)) (1, 1, 1) = 0 :=
    stepTerm_self rfl
  rw [cellB_eq_sum]
  have hs : sourceIndices axes01.length axes01.length axes01.length =
      [(0, 0, 0), (0, 0, 1), (0, 1, 0), (0, 1, 1),
       (1, 0, 0), (1, 0, 1), (1, 1, 0), (1, 1, 1)] := rfl
  rw [hs]
  simp only [List.map_cons, List.map_nil, List.sum_cons, List.sum_nil]
  rw [h0, h001, h010, h011, h100, h101, h110, h111]
  simp

lemma c2_cell :
    cellB aUnit aUnit aUnit axes01 axes01 axes01 (1, 1, 1) = vzero := by
  have h0 : stepTerm aUnit aUnit aUnit axes01 axes01 axes01
      (posOf axes01 axes01 axes01 (1, 1, 1)) (0, 0, 0) = 0 := by
    simp only [stepTerm, termAt, sub_pos_000, norm3_111]
    rw [if_pos sqrt3_cube_ne]
    norm_num [Array3.get, aUnit, crossX, crossY, crossZ, Prod.ext_iff]
  have h001 : stepTerm aUnit aUnit aUnit axes01 axes01 axes01
      (posOf axes01 axes01 axes01 (1, 1, 1)) (0, 0, 1) = 0 :=
    stepTerm_zeroJ rfl rfl rfl
  have h010 : stepTerm aUnit aUnit aUnit axes01 axes01 axes01
      (posOf axes01 axes01 axes01 (1, 1, 1)) (0, 1, 0) = 0 :=
    stepTerm_zeroJ rfl rfl rfl
  have h011 : stepTerm aUnit aUnit aUnit axes01 axes01 axes01
      (posOf axes01 axes01 axes01 (1, 1, 1)) (0, 1, 1) = 0 :=
    stepTerm_zeroJ rfl rfl rfl
  have h100 : stepTerm aUnit aUnit aUnit axes01 axes01 axes01
      (posOf axes01 axes01 axes01 (1, 1, 1)) (1, 0, 0) = 0 :=
    stepTerm_zeroJ rfl rfl rfl
  have h101 : stepTerm aUnit aUnit aUnit axes01 axes01 axes01
      (posOf axes01 axes01 axes01 (1, 1, 1)) (1, 0, 1) = 0 :=
    stepTerm_zeroJ rfl rfl rfl
  have h110 : stepTerm aUnit aUnit aUnit axes01 axes01 axes01
      (posOf axes01 axes01 axes01 (1, 1, 1)) (1, 1, 0) = 0 :=
    stepTerm_zeroJ rfl rfl rfl
  have h111 : stepTerm aUnit aUnit aUnit axes01 axes01 axes01
      (posOf axes01 axes01 axes01 (1, 1, 1)) (1, 1, 1) = 0 :=
    stepTerm_self rfl
  rw [cellB_eq_sum]
  have hs : sourceIndices axes01.length axes01.length axes01.length =
      [(0, 0, 0), (0, 0, 1), (0, 1, 0), (0, 1, 1),
       (1, 0, 0), (1, 0, 1), (1, 1, 0), (1, 1, 1)] := rfl
  rw [hs]
  simp only [List.map_cons, List.map_nil, List.sum_cons, List.sum_nil]
  rw [h0, h001, h010, h011, h100, h101, h110, h111]
  simp [vzero_eq_zero]

lemma getD_mem_of_lt (l : List ℝ) (n : ℕ) (h : n < l.length) :
    l.getD n 0 ∈ l := by
  rw [List.getD_eq_getElem?_getD, List.getElem?_eq_getElem h]
  exact List.getElem_mem h

/-! ## Claims -/

/-- C1: the per-cell value the solver computes equals the Biot-Savart
superposition sum `Σ_q [J(q) × (r_p − r_q)] / |r_p − r_q|³` over all source
indices whose position differs from the evaluation point's; and in the
2×2×2 scenario (unit Jx at cell (0,0,0), axes {0,1}), the returned field at
cell (1,1,1) (row-major flat index 7) equals the hand-computed single-source
contribution `(0, −1/(3√3), 1/(3√3))` within tolerance 1e-9. -/
theorem claim_c1_superposition :
    (∀ (jxA jyA jzA : Array3) (xc yc zc : List ℝ) (p : ℕ × ℕ × ℕ),
      cellB jxA jyA jzA xc yc zc p = superpositionSpec jxA jyA jzA xc yc zc p) ∧
    ∃ o : List ℝ × List ℝ × List ℝ,
      biot jxUnit jZero222 jZero222 axes01 axes01 axes01 = some o ∧
      |o.1.getD 7 0 - 0| ≤ 1e-9 ∧
      |o.2.1.getD 7 0 - -(1 / (3 * Real.sqrt 3))| ≤ 1e-9 ∧
      |o.2.2.getD 7 0 - 1 / (3 * Real.sqrt 3)| ≤ 1e-9 := by
  constructor
  · exact cellB_eq_superposition
  · have hb := biot_valid jxUnit jZero222 jZero222 axes01 axes01 axes01 2 2 2
      (by decide) (by decide) (by decide) (by norm_num) (by norm_num)
      rfl rfl rfl
    have h7 : (sourceIndices 2 2 2)[7]? = some (1, 1, 1) := rfl
    have key : cellB ⟨2, 2, 2, jxUnit.flatten.flatten⟩
        ⟨2, 2, 2, jZero222.flatten.flatten⟩ ⟨2, 2, 2, jZero222.flatten.flatten⟩
        axes01 axes01 axes01 (1, 1, 1) =
        (0, -(1 / (3 * Real.sqrt 3)), 1 / (3 * Real.sqrt 3)) := scenario_cell
    refine ⟨_, hb, ?_, ?_, ?_⟩
    · rw [map_getD_of_getElem? _ _ 7 (1, 1, 1) h7, key]
      norm_num
    · rw [map_getD_of_getElem? _ _ 7 (1, 1, 1) h7, key]
      norm_num
    · rw [map_getD_of_getElem? _ _ 7 (1, 1, 1) h7, key]
      norm_num

/-- C2 counterexample: in the 2×2×2 grid carrying the current density
`J = (1,1,1)` at cell (0,0,0) only (axes {0,1}), the evaluation point
(1,1,1) sits at a position different from the source's, yet the solver's
field there is exactly zero (the displacement is parallel to `J`), so a
single-point current does NOT contribute nonzero values to every evaluation
point with differing coordinates. -/
theorem claim_c2_counterexample :
    (∀ i j k : ℕ, i < 2 → j < 2 → k < 2 →
      (i, j, k) ≠ ((0, 0, 0) : ℕ × ℕ × ℕ) → aUnit.get i j k = 0) ∧
    aUnit.get 0 0 0 = 1 ∧
    posOf axes01 axes01 axes01 (1, 1, 1) ≠ posOf axes01 axes01 axes01 (0, 0, 0) ∧
    cellB aUnit aUnit aUnit axes01 axes01 axes01 (1, 1, 1) = vzero := by
  refine ⟨?_, rfl, ?_, c2_cell⟩
  · intro i j k hi hj hk hne
    interval_cases i <;> interval_cases j <;> interval_cases k <;>
      simp_all [Array3.get, aUnit]
  · rw [posOf_111]
    show _ ≠ ((0 : ℝ), 0, 0)
    simp [Prod.ext_iff]

/-- C2 (amended): a source is skipped exactly when `|r_p − r_q| = 0`; a
current density nonzero at exactly one in-range grid index `p0` contributes
zero to the field at `p0` itself, and at every evaluation point whose
position differs from `p0`'s the field is exactly the single-source term
`J(p0) × (r_p − r_p0) / |r_p − r_p0|³` — which can itself be zero (e.g.
when the displacement is parallel to `J`), so it is not always nonzero. -/
theorem claim_c2_amended (jxA jyA jzA : Array3) (xc yc zc : List ℝ)
    (p0 : ℕ × ℕ × ℕ) (hp1 : p0.1 < xc.length) (hp2 : p0.2.1 < yc.length)
    (hp3 : p0.2.2 < zc.length)
    (hJ : ∀ i j k : ℕ, i < xc.length → j < yc.length → k < zc.length →
      (i, j, k) ≠ p0 →
      jxA.get i j k = 0 ∧ jyA.get i j k = 0 ∧ jzA.get i j k = 0) :
    (∀ r : Vec3, norm3 r = 0 ↔ r = vzero) ∧
    cellB jxA jyA jzA xc yc zc p0 = vzero ∧
    ∀ p : ℕ × ℕ × ℕ, posOf xc yc zc p ≠ posOf xc yc zc p0 →
      cellB jxA jyA jzA xc yc zc p =
        termAt jxA jyA jzA xc yc zc (posOf xc yc zc p) p0 := by
  refine ⟨norm3_eq_zero, ?_, ?_⟩
  · rw [cellB_eq_sum, vzero_eq_zero]
    apply List.sum_eq_zero
    intro x hx
    obtain ⟨q, hq, rfl⟩ := List.mem_map.mp hx
    obtain ⟨hq1, hq2, hq3⟩ := mem_sourceIndices hq
    by_cases hqp : q = p0
    · subst hqp
      exact stepTerm_self rfl
    · obtain ⟨e1, e2, e3⟩ := hJ q.1 q.2.1 q.2.2 hq1 hq2 hq3 hqp
      exact stepTerm_zeroJ e1 e2 e3
  · intro p hp
    rw [cellB_eq_superposition]
    unfold superpositionSpec
    apply Finset.sum_eq_single_of_mem
    · rw [Finset.mem_filter]
      exact ⟨Finset.mem_product.mpr ⟨Finset.mem_range.mpr hp1,
        Finset.mem_product.mpr ⟨Finset.mem_range.mpr hp2,
          Finset.mem_range.mpr hp3⟩⟩, hp⟩
    · intro b hb hbp
      have hbm := (Finset.mem_filter.mp hb).1
      have hb1 := (Finset.mem_product.mp hbm).1
      have hb2 := (Finset.mem_product.mp (Finset.mem_product.mp hbm).2).1
      have hb3 := (Finset.mem_product.mp (Finset.mem_product.mp hbm).2).2
      obtain ⟨e1, e2, e3⟩ := hJ b.1 b.2.1 b.2.2 (Finset.mem_range.mp hb1)
        (Finset.mem_range.mp hb2) (Finset.mem_range.mp hb3) hbp
      exact termAt_zeroJ e1 e2 e3

/-- Witness for C2 (amended): 2×1×1 grid with `J = (1,0,0)` at index
(0,0,0) only, axes x = {0,1}; the field at the source cell is zero, and at
(1,0,0) — whose position differs — it equals the single-source term. -/
theorem claim_c2_amended_witness :
    cellB ⟨2, 1, 1, [1, 0]⟩ ⟨2, 1, 1, [0, 0]⟩ ⟨2, 1, 1, [0, 0]⟩
      [(0 : ℝ), 1] [0] [0] (0, 0, 0) = vzero ∧
    cellB ⟨2, 1, 1, [1, 0]⟩ ⟨2, 1, 1, [0, 0]⟩ ⟨2, 1, 1, [0, 0]⟩
      [(0 : ℝ), 1] [0] [0] (1, 0, 0) =
      termAt ⟨2, 1, 1, [1, 0]⟩ ⟨2, 1, 1, [0, 0]⟩ ⟨2, 1, 1, [0, 0]⟩
        [(0 : ℝ), 1] [0] [0]
        (posOf [(0 : ℝ), 1] [0] [0] (1, 0, 0)) (0, 0, 0) := by
  have h := claim_c2_amended ⟨2, 1, 1, [1, 0]⟩ ⟨2, 1, 1, [0, 0]⟩
    ⟨2, 1, 1, [0, 0]⟩ [(0 : ℝ), 1] [0] [0] (0, 0, 0)
    (by norm_num) (by norm_num) (by norm_num)
    (by
      intro i j k hi hj hk hne
      have hi2 : i < 2 := hi
      have hj1 : j < 1 := hj
      have hk1 : k < 1 := hk
      interval_cases i <;> interval_cases j <;> interval_cases k <;>
        simp_all [Array3.get])
  exact ⟨h.2.1, h.2.2 (1, 0, 0) (by
    show ((1 : ℝ), 0, 0) ≠ ((0 : ℝ), 0, 0)
    simp [Prod.ext_iff])⟩

/-- C3: the parallel region is deterministic: any two task schedules that
each visit every evaluation index produce identical outputs, each cell
holding the fixed strictly ordered left fold over source indices enumerated
x-axis outermost, y middle, z innermost (`sourceIndices`). -/
theorem claim_c3_determinism (jxA jyA jzA : Array3) (xc yc zc : List ℝ)
    (s1 s2 : List (ℕ × ℕ × ℕ)) (p : ℕ × ℕ × ℕ) (h1 : p ∈ s1) (h2 : p ∈ s2) :
    runSchedule jxA jyA jzA xc yc zc s1 p =
      runSchedule jxA jyA jzA xc yc zc s2 p ∧
    runSchedule jxA jyA jzA xc yc zc s1 p =
      (sourceIndices xc.length yc.length zc.length).foldl
        (biotStep jxA jyA jzA xc yc zc (posOf xc yc zc p)) vzero := by
  have e1 := runSchedule_mem jxA jyA jzA xc yc zc s1 p h1
  have e2 := runSchedule_mem jxA jyA jzA xc yc zc s2 p h2
  exact ⟨e1.trans e2.symm, e1⟩

/-- Witness for C3: on the 2×2×2 scenario, running the evaluation points in
row-major order or in reversed order gives the same value at (1,1,1), equal
to the ordered fold. -/
theorem claim_c3_witness :
    runSchedule aUnit aZero aZero axes01 axes01 axes01
        (sourceIndices 2 2 2) (1, 1, 1) =
      runSchedule aUnit aZero aZero axes01 axes01 axes01
        ((sourceIndices 2 2 2).reverse) (1, 1, 1) ∧
    runSchedule aUnit aZero aZero axes01 axes01 axes01
        (sourceIndices 2 2 2) (1, 1, 1) =
      (sourceIndices axes01.length axes01.length axes01.length).foldl
        (biotStep aUnit aZero aZero axes01 axes01 axes01
          (posOf axes01 axes01 axes01 (1, 1, 1))) vzero :=
  claim_c3_determinism aUnit aZero aZero axes01 axes01 axes01
    (sourceIndices 2 2 2) ((sourceIndices 2 2 2).reverse) (1, 1, 1)
    (by decide) (by decide)

/-- C4 counterexample: the nested input `[[[1,2],[3,4]], [[5,6,7,8]]]` is
ragged — its two first-level rows have lengths 2 and 1 — yet `convert`
silently accepts it, returning a dense 2×2×2 array with the flattened data
reinterpreted, instead of failing with a typed ShapeMismatch error. -/
theorem claim_c4_counterexample :
    ([[(1 : ℝ), 2], [3, 4]] : List (List ℝ)).length ≠
      ([[(5 : ℝ), 6, 7, 8]] : List (List ℝ)).length ∧
    convert [[[(1 : ℝ), 2], [3, 4]], [[5, 6, 7, 8]]] =
      some ⟨2, 2, 2, [1, 2, 3, 4, 5, 6, 7, 8]⟩ :=
  ⟨by decide, rfl⟩

/-- C4 (amended): `convert` performs no row-by-row validation: it panics
(no typed, recoverable error) on an empty input or empty first row, and on a
nonempty input it succeeds exactly when the total number of scalars equals
`phi.len() * phi[0].len() * phi[0][0].len()` — so a ragged input either
panics via `unwrap` or is silently accepted with a reinterpreted shape. -/
theorem claim_c4_amended :
    convert [] = none ∧
    (∀ t : List (List (List ℝ)), convert ([] :: t) = none) ∧
    ∀ (r00 : List ℝ) (t0 : List (List ℝ)) (t : List (List (List ℝ))),
      (convert ((r00 :: t0) :: t)).isSome = true ↔
        ((r00 :: t0) :: t).flatten.flatten.length =
          ((r00 :: t0) :: t).length * ((r00 :: t0).length * r00.length) := by
  refine ⟨rfl, fun t => rfl, ?_⟩
  intro r00 t0 t
  constructor
  · intro h
    by_contra hlen
    simp only [convert] at h
    rw [if_neg hlen] at h
    exact absurd h (by simp)
  · intro hlen
    simp only [convert]
    rw [if_pos hlen]
    rfl

/-- C5 counterexample: a 1×1×1 grid given with an x-axis of length 2 makes
the call panic inside the parallel loop (modelled as `none`): no typed
AxisShapeInconsistency error is ever produced before the field
computation. -/
theorem claim_c5_counterexample :
    (convert [[[(1 : ℝ)]]]).isSome = true ∧
    ([(0 : ℝ), 1] : List ℝ).length ≠ 1 ∧
    biot [[[(1 : ℝ)]]] [[[(1 : ℝ)]]] [[[(1 : ℝ)]]] [0, 1] [0] [0] = none :=
  ⟨rfl, by decide, rfl⟩

/-- C5 (amended): `biot` performs no axis-shape check: whenever the
(nonempty) grid extents disagree with the axis lengths, the call panics on
an out-of-bounds access during the computation and returns nothing — it
never raises a typed error. -/
theorem claim_c5_amended (jx jy jz : List (List (List ℝ)))
    (xc yc zc : List ℝ) (ax ay az : Array3)
    (hax : convert jx = some ax) (hay : convert jy = some ay)
    (haz : convert jz = some az)
    (hdim : (ay.d0 = ax.d0 ∧ ay.d1 = ax.d1 ∧ ay.d2 = ax.d2) ∧
      (az.d0 = ax.d0 ∧ az.d1 = ax.d1 ∧ az.d2 = ax.d2))
    (h0 : ¬(ax.d0 = 0 ∨ ax.d1 = 0 ∨ ax.d2 = 0))
    (hmis : ¬(xc.length = ax.d0 ∧ yc.length = ax.d1 ∧ zc.length = ax.d2)) :
    biot jx jy jz xc yc zc = none := by
  unfold biot
  rw [hax, hay, haz]
  simp only [Option.some_bind]
  rw [if_pos hdim, if_neg (fun h => h.elim h0 hmis)]

/-- Witness for C5 (amended): the 1×1×1 grid with a length-2 x-axis. -/
theorem claim_c5_amended_witness :
    biot [[[(1 : ℝ)]]] [[[(1 : ℝ)]]] [[[(1 : ℝ)]]] [0, 1] [0] [0] = none :=
  claim_c5_amended [[[(1 : ℝ)]]] [[[(1 : ℝ)]]] [[[(1 : ℝ)]]]
    [0, 1] [0] [0] ⟨1, 1, 1, [1]⟩ ⟨1, 1, 1, [1]⟩ ⟨1, 1, 1, [1]⟩
    rfl rfl rfl (by decide) (by decide) (by decide)

/-- C6: for a valid input — three rectangular M×N×K grids with axes of
matching lengths — `biot` returns three sequences of exactly `M*N*K`
elements each in row-major order (first axis outermost): the entry at flat
index `i*(N*K) + j*K + k` is the solver's cell value at (i,j,k). -/
theorem claim_c6_output_shape (jx jy jz : List (List (List ℝ)))
    (xc yc zc : List ℝ) (M N K : ℕ) (hx : rect jx M N K) (hy : rect jy M N K)
    (hz : rect jz M N K) (hM : 0 < M) (hN : 0 < N) (hK : 0 < K)
    (hxc : xc.length = M) (hyc : yc.length = N) (hzc : zc.length = K) :
    ∃ o : List ℝ × List ℝ × List ℝ,
      biot jx jy jz xc yc zc = some o ∧
      o.1.length = M * (N * K) ∧ o.2.1.length = M * (N * K) ∧
      o.2.2.length = M * (N * K) ∧
      ∀ i j k : ℕ, i < M → j < N → k < K →
        o.1.getD (i * (N * K) + (j * K + k)) 0 =
          (cellB ⟨M, N, K, jx.flatten.flatten⟩ ⟨M, N, K, jy.flatten.flatten⟩
            ⟨M, N, K, jz.flatten.flatten⟩ xc yc zc (i, j, k)).1 ∧
        o.2.1.getD (i * (N * K) + (j * K + k)) 0 =
          (cellB ⟨M, N, K, jx.flatten.flatten⟩ ⟨M, N, K, jy.flatten.flatten⟩
            ⟨M, N, K, jz.flatten.flatten⟩ xc yc zc (i, j, k)).2.1 ∧
        o.2.2.getD (i * (N * K) + (j * K + k)) 0 =
          (cellB ⟨M, N, K, jx.flatten.flatten⟩ ⟨M, N, K, jy.flatten.flatten⟩
            ⟨M, N, K, jz.flatten.flatten⟩ xc yc zc (i, j, k)).2.2 := by
  refine ⟨_, biot_valid jx jy jz xc yc zc M N K hx hy hz hM hN hxc hyc hzc,
    ?_, ?_, ?_, ?_⟩
  · rw [List.length_map, sourceIndices_length]
  · rw [List.length_map, sourceIndices_length]
  · rw [List.length_map, sourceIndices_length]
  · intro i j k hi hj hk
    have hidx := sourceIndices_getElem M N K i j k hi hj hk
    exact ⟨map_getD_of_getElem? _ _ _ _ hidx,
      map_getD_of_getElem? _ _ _ _ hidx, map_getD_of_getElem? _ _ _ _ hidx⟩

/-- Witness for C6: the 2×2×2 scenario input yields three sequences of
exactly 8 elements. -/
theorem claim_c6_witness :
    ((biot jxUnit jZero222 jZero222 axes01 axes01 axes01).getD
      ([], [], [])).1.length = 8 ∧
    ((biot jxUnit jZero222 jZero222 axes01 axes01 axes01).getD
      ([], [], [])).2.1.length = 8 ∧
    ((biot jxUnit jZero222 jZero222 axes01 axes01 axes01).getD
      ([], [], [])).2.2.length = 8 := by
  obtain ⟨o, ho, h1, h2, h3, -⟩ := claim_c6_output_shape jxUnit jZero222
    jZero222 axes01 axes01 axes01 2 2 2 (by decide) (by decide) (by decide)
    (by norm_num) (by norm_num) (by norm_num) rfl rfl rfl
  rw [ho]
  exact ⟨h1, h2, h3⟩

/-- C7: the visualizer emits exactly one arrow directive per sampled point
(stride 3 on each axis, solver nested order): the k-th arrow carries the
fixed red color `[1,0,0]`, a diameter equal to the normalized magnitude of
the k-th sample point, and endpoints equal to the sample coordinate minus
and plus the raw (unnormalized) field vector. -/
theorem claim_c7_arrow_directives (bxA byA bzA : Array3) (xc yc zc : List ℝ)
    (k : ℕ) (p : ℕ × ℕ × ℕ) (hk : (samplePts xc yc zc)[k]? = some p) :
    (jmolArrows bxA byA bzA xc yc zc).length = (samplePts xc yc zc).length ∧
    (jmolArrows bxA byA bzA xc yc zc)[k]? = some
      { idx := k
        color := (1, 0, 0)
        diam := normalizeOne ((samplePts xc yc zc).map (magnitude bxA byA bzA))
          (magnitude bxA byA bzA p)
        tailPt := (xc.getD p.1 0 - bxA.get p.1 p.2.1 p.2.2,
          yc.getD p.2.1 0 - byA.get p.1 p.2.1 p.2.2,
          zc.getD p.2.2 0 - bzA.get p.1 p.2.1 p.2.2)
        headPt := (xc.getD p.1 0 + bxA.get p.1 p.2.1 p.2.2,
          yc.getD p.2.1 0 + byA.get p.1 p.2.1 p.2.2,
          zc.getD p.2.2 0 + bzA.get p.1 p.2.1 p.2.2) } := by
  have hkl : k < (samplePts xc yc zc).length := by
    by_contra hlt
    rw [List.getElem?_eq_none (le_of_not_lt hlt)] at hk
    exact Option.noConfusion hk
  constructor
  · simp only [jmolArrows, List.length_map, List.enum_length]
  · have hd : (normalizeLengths ((samplePts xc yc zc).map
        (magnitude bxA byA bzA))).getD k 0 =
        normalizeOne ((samplePts xc yc zc).map (magnitude bxA byA bzA))
          (magnitude bxA byA bzA p) := by
      rw [normalizeLengths_getD (by rw [List.length_map]; exact hkl),
        map_getD_of_getElem? _ _ _ _ hk]
    simp only [jmolArrows]
    rw [List.getElem?_map, List.getElem?_enum, hk]
    simp only [Option.map_some']
    rw [hd]

/-- Witness for C7: a single-cell field `B = (2,0,0)` on a one-point grid at
the origin produces exactly one arrow with endpoints `(0,0,0) ∓ (2,0,0)`. -/
theorem claim_c7_witness :
    (jmolArrows ⟨1, 1, 1, [2]⟩ ⟨1, 1, 1, [0]⟩ ⟨1, 1, 1, [0]⟩
        [(0 : ℝ)] [0] [0]).length =
      (samplePts [(0 : ℝ)] [0] [0]).length ∧
    (jmolArrows ⟨1, 1, 1, [2]⟩ ⟨1, 1, 1, [0]⟩ ⟨1, 1, 1, [0]⟩
        [(0 : ℝ)] [0] [0])[0]? = some
      { idx := 0
        color := (1, 0, 0)
        diam := normalizeOne ((samplePts [(0 : ℝ)] [0] [0]).map
          (magnitude ⟨1, 1, 1, [2]⟩ ⟨1, 1, 1, [0]⟩ ⟨1, 1, 1, [0]⟩))
          (magnitude ⟨1, 1, 1, [2]⟩ ⟨1, 1, 1, [0]⟩ ⟨1, 1, 1, [0]⟩ (0, 0, 0))
        tailPt := (List.getD [(0 : ℝ)] 0 0 - Array3.get ⟨1, 1, 1, [2]⟩ 0 0 0,
          List.getD [(0 : ℝ)] 0 0 - Array3.get ⟨1, 1, 1, [0]⟩ 0 0 0,
          List.getD [(0 : ℝ)] 0 0 - Array3.get ⟨1, 1, 1, [0]⟩ 0 0 0)
        headPt := (List.getD [(0 : ℝ)] 0 0 + Array3.get ⟨1, 1, 1, [2]⟩ 0 0 0,
          List.getD [(0 : ℝ)] 0 0 + Array3.get ⟨1, 1, 1, [0]⟩ 0 0 0,
          List.getD [(0 : ℝ)] 0 0 + Array3.get ⟨1, 1, 1, [0]⟩ 0 0 0) } :=
  claim_c7_arrow_directives ⟨1, 1, 1, [2]⟩ ⟨1, 1, 1, [0]⟩ ⟨1, 1, 1, [0]⟩
    [(0 : ℝ)] [0] [0] 0 (0, 0, 0) rfl

/-- C8: in the visualization pass, if the maximum of the sampled magnitudes
equals the minimum, the normalization is skipped and the raw magnitudes pass
through unchanged; otherwise every entry is rescaled to
`(m − min)/(max − min)`, which lies in `[0, 1]`. -/
theorem claim_c8_normalization (bxA byA bzA : Array3) (xc yc zc : List ℝ)
    (mx mn : ℝ)
    (hmx : listMax ((samplePts xc yc zc).map (magnitude bxA byA bzA)) = some mx)
    (hmn : listMin ((samplePts xc yc zc).map (magnitude bxA byA bzA)) = some mn) :
    (mx = mn →
      normalizeLengths ((samplePts xc yc zc).map (magnitude bxA byA bzA)) =
        (samplePts xc yc zc).map (magnitude bxA byA bzA)) ∧
    (mx ≠ mn →
      ∀ v ∈ normalizeLengths ((samplePts xc yc zc).map (magnitude bxA byA bzA)),
        0 ≤ v ∧ v ≤ 1) :=
  ⟨fun h => normalizeLengths_skip hmx hmn h,
    fun h => normalizeLengths_mem_unit hmx hmn h⟩

/-- Witness for C8: a one-point grid with an all-zero field exercises the
max = min branch (raw value passes through); a 4×1×1 field with sampled
magnitudes 0 and 3 exercises the rescaling branch, whose entries lie in
`[0, 1]`. -/
theorem claim_c8_witness :
    (normalizeLengths ((samplePts axes1 axes1 axes1).map
        (magnitude aZero1 aZero1 aZero1)) =
      (samplePts axes1 axes1 axes1).map (magnitude aZero1 aZero1 aZero1)) ∧
    (0 ≤ (normalizeLengths ((samplePts axes4 axes1 axes1).map
        (magnitude bxStep4 bZero4 bZero4))).getD 1 0 ∧
      (normalizeLengths ((samplePts axes4 axes1 axes1).map
        (magnitude bxStep4 bZero4 bZero4))).getD 1 0 ≤ 1) := by
  constructor
  · exact (claim_c8_normalization aZero1 aZero1 aZero1 axes1 axes1 axes1
      (magnitude aZero1 aZero1 aZero1 (0, 0, 0))
      (magnitude aZero1 aZero1 aZero1 (0, 0, 0)) rfl rfl).1 rfl
  · have hm0 : magnitude bxStep4 bZero4 bZero4 (0, 0, 0) = 0 := by
      have h : (bxStep4.get 0 0 0 ^ 2 + bZero4.get 0 0 0 ^ 2 +
          bZero4.get 0 0 0 ^ 2 : ℝ) = 0 := by
        norm_num [Array3.get, bxStep4, bZero4]
      unfold magnitude
      rw [h, Real.sqrt_zero]
    have hm3 : magnitude bxStep4 bZero4 bZero4 (3, 0, 0) = 3 := by
      have h : (bxStep4.get 3 0 0 ^ 2 + bZero4.get 3 0 0 ^ 2 +
          bZero4.get 3 0 0 ^ 2 : ℝ) = 3 ^ 2 := by
        norm_num [Array3.get, bxStep4, bZero4]
      unfold magnitude
      rw [h, Real.sqrt_sq (by norm_num : (0 : ℝ) ≤ 3)]
    have hneq : max (magnitude bxStep4 bZero4 bZero4 (0, 0, 0))
        (magnitude bxStep4 bZero4 bZero4 (3, 0, 0)) ≠
        min (magnitude bxStep4 bZero4 bZero4 (0, 0, 0))
          (magnitude bxStep4 bZero4 bZero4 (3, 0, 0)) := by
      rw [hm0, hm3, max_eq_right (by norm_num : (0 : ℝ) ≤ 3),
        min_eq_left (by norm_num : (0 : ℝ) ≤ 3)]
      norm_num
    have h := (claim_c8_normalization bxStep4 bZero4 bZero4 axes4 axes1 axes1
      (max (magnitude bxStep4 bZero4 bZero4 (0, 0, 0))
        (magnitude bxStep4 bZero4 bZero4 (3, 0, 0)))
      (min (magnitude bxStep4 bZero4 bZero4 (0, 0, 0))
        (magnitude bxStep4 bZero4 bZero4 (3, 0, 0))) rfl rfl).2 hneq
    have hlen : 1 < (normalizeLengths ((samplePts axes4 axes1 axes1).map
        (magnitude bxStep4 bZero4 bZero4))).length := by
      have hsl : (samplePts axes4 axes1 axes1).length = 2 := rfl
      rw [normalizeLengths_length, List.length_map, hsl]
      norm_num
    exact h _ (getD_mem_of_lt _ 1 hlen)

/-- C9 counterexample: for the 1×1×1 input the field computation succeeds
(with a writable file the caller receives the arrays), but when the
visualization file cannot be created the whole call panics after the
computation and the caller receives nothing — the numeric result is
discarded, not preserved. -/
theorem claim_c9_counterexample :
    (biot [[[(1 : ℝ)]]] [[[(1 : ℝ)]]] [[[(1 : ℝ)]]] [0] [0] [0]).isSome =
      true ∧
    biotWithFile false [[[(1 : ℝ)]]] [[[(1 : ℝ)]]] [[[(1 : ℝ)]]] [0] [0] [0] =
      none := by
  constructor
  · rfl
  · unfold biotWithFile
    rfl

/-- C9 (amended): a visualization-file failure aborts the entire `biot` call
— for every input, when the file cannot be created the caller receives no
arrays at all. -/
theorem claim_c9_amended (jx jy jz : List (List (List ℝ)))
    (xc yc zc : List ℝ) :
    biotWithFile false jx jy jz xc yc zc = none := by
  unfold biotWithFile
  cases biot jx jy jz xc yc zc <;> rfl

/-- C10: `biot` never cross-checks the three grids' shapes against each
other: two individually rectangular grids of different shapes (1×1×1 and
1×2×1) both convert successfully, yet the call panics (the `Zip` shape
assertion) instead of returning a typed error; likewise an empty grid
panics inside `convert`. -/
theorem claim_c10_no_cross_shape_check :
    rect [[[(1 : ℝ)]]] 1 1 1 ∧
    rect [[[(1 : ℝ)], [2]]] 1 2 1 ∧
    convert [[[(1 : ℝ)]]] = some ⟨1, 1, 1, [1]⟩ ∧
    convert [[[(1 : ℝ)], [2]]] = some ⟨1, 2, 1, [1, 2]⟩ ∧
    biot [[[(1 : ℝ)]]] [[[(1 : ℝ)], [2]]] [[[(1 : ℝ)]]] [0] [0] [0] = none ∧
    convert ([] : List (List (List ℝ))) = none ∧
    biot [] [] [] [(0 : ℝ)] [0] [0] = none :=
  ⟨by decide, by decide, rfl, rfl, rfl, rfl, rfl⟩
